import Mathlib

/-!
Shallow embedding of the retrieval-and-synthesis core of the RAG-Playground
repository (`src/rag_strategies/retrieval/{query_processor,response_generator,
rag_system}.py`), together with theorems settling the spec claims about it.

Modelling conventions:
* Python `float` scores and confidences are modelled by `ℚ` with exact
  arithmetic; `sum(xs)/len(xs)` is `pyMean`, and division by zero never
  occurs on the guarded paths the code takes.
* Python `str` is Lean `String`; `str.lower()` is modelled character-wise by
  `lowerChar` (ASCII letters, the case the corpus exercises), `str.split()`
  by splitting on ASCII whitespace code points and dropping empty pieces,
  and `' '.join` by `joinWords`.
* MongoDB documents are records: absent keys are `Option` fields set to
  `none`; `dict.get(k, d)` is `Option.getD`.
* The external services (embedding model, Atlas vector search, completion
  model) and the wall clock are an `Oracle` of functions returning
  `Except String _`: an `.error e` models the service call raising an
  exception whose `str()` is `e`.  Each issued store/LLM request is recorded
  as a `QEvent` so that theorems can speak about which searches ran.
* Python `list.sort(key=..., reverse=True)` is a stable descending sort; it
  is modelled by `List.insertionSort` with the (total, transitive) relation
  `scoreGE`, which is stable in exactly the same sense.
-/

namespace RagPlayground

/-- Character-wise model of Python `str.lower()` on ASCII letters:
uppercase `A`–`Z` (code points 65–90) map to the corresponding lowercase
letter, every other character is unchanged. -/
def lowerChar (c : Char) : Char :=
  if 65 ≤ c.toNat ∧ c.toNat ≤ 90 then Char.ofNat (c.toNat + 32) else c

/-- ASCII whitespace code points, the separators of Python `str.split()`
(space, tab, newline, carriage return, vertical tab, form feed). -/
def isPySpace (c : Char) : Bool :=
  decide (c.toNat = 32 ∨ c.toNat = 9 ∨ c.toNat = 10 ∨ c.toNat = 13 ∨
    c.toNat = 11 ∨ c.toNat = 12)

/-- Python `s.split()`: the maximal whitespace-free non-empty pieces of `s`. -/
def pyWords (l : List Char) : List (List Char) :=
  (l.splitOnP isPySpace).filter (fun w => !w.isEmpty)

/-- Python `' '.join(ws)`. -/
def joinWords : List (List Char) → List Char
  | [] => []
  | [w] => w
  | w :: w2 :: ws => w ++ ' ' :: joinWords (w2 :: ws)

/-- Model of `QueryProcessor._normalize_content`:
`' '.join(content.lower().split())`. -/
def normalizeContent (s : String) : String :=
  ⟨joinWords (pyWords (s.data.map lowerChar))⟩

/-- Structured chunk metadata; the retrieval core only ever reads
`component_path` from it (`response_generator.py` line 245). -/
structure Meta where
  component_path : Option String := none
  deriving DecidableEq, Repr

/-- A chunk document as the store's `$project` stage returns it
(`query_processor.py` lines 156–164, 242–250): `_id`, `content`,
`metadata`, `root_id`, `summary_id` and the `$meta: searchScore`. -/
structure StoreChunk where
  oid : Nat
  content : String
  metadata : Option Meta := none
  root_id : Option Nat := none
  summary_id : Option Nat := none
  score : Option ℚ := none
  deriving DecidableEq, Repr

/-- The dict built by `QueryProcessor._process_chunks` (lines 284–290):
all keys present, score defaulted, and no `_id` key. -/
structure PChunk where
  content : String
  metadata : Meta
  root_id : Option Nat := none
  summary_id : Option Nat := none
  score : ℚ
  deriving DecidableEq, Repr

/-- A summary document as `_search_summaries`'s `$project` returns it
(`query_processor.py` lines 94–103). -/
structure Summary where
  oid : Nat
  root_id : Option Nat := none
  page_title : Option String := none
  summary : Option String := none
  source_documents : List String := []
  metadata : Option Meta := none
  score : Option ℚ := none
  deriving DecidableEq, Repr

/-- Python `sum(xs) / len(xs)` over floats, modelled exactly over `ℚ`. -/
def pyMean (l : List ℚ) : ℚ := l.sum / (l.length : ℚ)

namespace QueryProcessor

/-- The dict `_process_chunks` builds for a surviving chunk
(`query_processor.py` lines 284–290); `chunk.get('metadata', {})` and
`chunk.get('score', 0.7)` are the two defaulted reads. -/
def mkProcessed (c : StoreChunk) : PChunk :=
  { content := c.content
    metadata := c.metadata.getD {}
    root_id := c.root_id
    summary_id := c.summary_id
    score := c.score.getD (7/10) }

/-- The dedup loop of `_process_chunks` (lines 275–292): `seen` is the
`seen_content` set of normalized keys, first occurrence of each key wins. -/
def dedupChunks : List StoreChunk → List String → List PChunk
  | [], _ => []
  | c :: cs, seen =>
    if normalizeContent c.content ∈ seen then dedupChunks cs seen
    else mkProcessed c :: dedupChunks cs (normalizeContent c.content :: seen)

/-- The comparison underlying `sort(key=lambda x: x['score'], reverse=True)`:
`a` may precede `b` iff `a`'s score is at least `b`'s. -/
def scoreGE (a b : PChunk) : Prop := b.score ≤ a.score

instance : DecidableRel scoreGE := fun a b =>
  inferInstanceAs (Decidable (b.score ≤ a.score))

instance : IsTotal PChunk scoreGE :=
  ⟨fun a b => (le_total b.score a.score).imp id id⟩

instance : IsTrans PChunk scoreGE :=
  ⟨fun _ _ _ hab hbc => le_trans hbc hab⟩

/-- Model of `QueryProcessor._process_chunks` (lines 273–296): deduplicate by
normalized content keeping first occurrences, then stable-sort by score
descending. -/
def processChunks (cs : List StoreChunk) : List PChunk :=
  List.insertionSort scoreGE (dedupChunks cs [])

/-- The identity rebuild `_process_chunks` performs when handed an
already-processed chunk dict (every key present, so each `.get` returns the
stored value). -/
def mkProcessedP (p : PChunk) : PChunk :=
  { content := p.content
    metadata := p.metadata
    root_id := p.root_id
    summary_id := p.summary_id
    score := p.score }

/-- Model of `_process_chunks` as it executes on a list of already-processed chunk
dicts (Python is duck-typed, so the same source lines run; `content`,
`metadata` and `score` are all present, hence the defaults are dead). -/
def dedupChunksP : List PChunk → List String → List PChunk
  | [], _ => []
  | p :: ps, seen =>
    if normalizeContent p.content ∈ seen then dedupChunksP ps seen
    else mkProcessedP p :: dedupChunksP ps (normalizeContent p.content :: seen)

/-- Second application of `_process_chunks`, on processed chunk dicts. -/
def processChunksP (ps : List PChunk) : List PChunk :=
  List.insertionSort scoreGE (dedupChunksP ps [])

end QueryProcessor

/-- A query embedding vector. -/
abbrev Embedding := List ℚ

/-- One request issued to an external service during a query, with the
parameters the source hard-codes into each aggregation pipeline:
* `summaryQ k`: `_search_summaries`, `knnBeta` with `k = 5`;
* `anchoredQ sids rids k lim`: the first pipeline of
  `_get_chunks_from_summaries` (`knnBeta k = 10`, `$match` on the summary
  ids / root ids, `$limit 10`);
* `fallbackQ k`: the fallback pipeline of `_get_chunks_from_summaries`
  (`knnBeta k = 5`, no `$match`, no `$limit`);
* `directQ excl k lim`: `_direct_chunk_search` (`knnBeta k = 10`,
  `$match` excluding `excl`, `$limit 5`);
* `llmQ prompt`: one completion call. -/
inductive QEvent where
  | summaryQ (k : Nat)
  | anchoredQ (sids rids : List Nat) (k lim : Nat)
  | fallbackQ (k : Nat)
  | directQ (excl : List String) (k lim : Nat)
  | llmQ (prompt : String)
  deriving DecidableEq, Repr

/-- Is this event the extra global chunk search of step 5? -/
def QEvent.isDirect : QEvent → Bool
  | .directQ _ _ _ => true
  | _ => false

/-- Is this event the fallback global chunk search of step 4? -/
def QEvent.isFallback : QEvent → Bool
  | .fallbackQ _ => true
  | _ => false

/-- Is this event a completion (LLM) call? -/
def QEvent.isLlm : QEvent → Bool
  | .llmQ _ => true
  | _ => false

/-- The external collaborators of one query: embedding service, the four
store searches, the completion service and the wall clock.  An `.error e`
result models the underlying call raising an exception with `str(e) = e`.
The functions are parameterised exactly by the data the source puts into
each request. -/
structure Oracle where
  embedQuery : String → Except String Embedding
  summarySearch : Embedding → Except String (List Summary)
  anchoredChunkSearch : Embedding → List Nat → List Nat → Except String (List StoreChunk)
  fallbackChunkSearch : Embedding → Except String (List StoreChunk)
  directChunkSearch : Embedding → List String → Except String (List StoreChunk)
  llm : String → Except String String
  now : String

namespace QueryProcessor

/-- Model of `QueryProcessor._search_summaries` (lines 80–120): run the summary
vector search; its `except` clause turns any failure into `[]`. -/
def searchSummaries (o : Oracle) (emb : Embedding) :
    List Summary × List QEvent :=
  match o.summarySearch emb with
  | .error _ => ([], [.summaryQ 5])
  | .ok results => (results, [.summaryQ 5])

/-- Model of `QueryProcessor._get_chunks_from_summaries` (lines 122–217): return `[]`
when there are no summaries; otherwise run the anchored top-10 search
restricted to the summaries' ids, and when it returns no documents run the
pure top-5 fallback search.  The enclosing `try`/`except` turns any raised
failure into `[]` (after the failing request was already issued). -/
def getChunksFromSummaries (o : Oracle) (summaries : List Summary)
    (emb : Embedding) : List StoreChunk × List QEvent :=
  if summaries = [] then ([], [])
  else
    match o.anchoredChunkSearch emb (summaries.map (·.oid))
        (summaries.filterMap (·.root_id)) with
    | .error _ =>
        ([], [.anchoredQ (summaries.map (·.oid))
          (summaries.filterMap (·.root_id)) 10 10])
    | .ok results =>
      if results ≠ [] then
        (results, [.anchoredQ (summaries.map (·.oid))
          (summaries.filterMap (·.root_id)) 10 10])
      else
        match o.fallbackChunkSearch emb with
        | .error _ =>
            ([], [.anchoredQ (summaries.map (·.oid))
              (summaries.filterMap (·.root_id)) 10 10, .fallbackQ 5])
        | .ok results2 =>
            (results2, [.anchoredQ (summaries.map (·.oid))
              (summaries.filterMap (·.root_id)) 10 10, .fallbackQ 5])

/-- Model of `QueryProcessor._direct_chunk_search` (lines 219–271): global top-10
chunk search excluding `existing_chunk_ids`, `$limit 5`; its `except`
clause turns any failure into `[]`. -/
def directChunkSearch (o : Oracle) (emb : Embedding)
    (existing_chunk_ids : List String) : List StoreChunk × List QEvent :=
  match o.directChunkSearch emb existing_chunk_ids with
  | .error _ => ([], [.directQ existing_chunk_ids 10 5])
  | .ok results => (results, [.directQ existing_chunk_ids 10 5])

/-- The result dict of `QueryProcessor.search` (lines 66–74). -/
structure SearchMeta where
  total_chunks : Nat
  summary_count : Nat
  search_type : String
  deriving DecidableEq, Repr

/-- Model of the `search` return value: processed chunks, summaries, metadata. -/
structure SearchResult where
  chunks : List PChunk
  summaries : List Summary
  metadata : SearchMeta
  deriving DecidableEq, Repr

/-- Model of `QueryProcessor.search` (lines 38–78): embed the query, search
summaries, pull anchored/fallback chunks, and when fewer than 3 chunks were
collected issue one extra direct search excluding the `str(_id)`s already
collected, appending its results; finally dedup-and-sort the chunks.  The
`except` clause of `search` re-raises, so an embedding failure is an
`.error`; every store failure below was already absorbed to `[]`. -/
def search (o : Oracle) (query : String) :
    Except String SearchResult × List QEvent :=
  match o.embedQuery query with
  | .error e => (.error e, [])
  | .ok emb =>
    let summaries := (searchSummaries o emb).1
    let t1 := (searchSummaries o emb).2
    let chunks_from_summaries := (getChunksFromSummaries o summaries emb).1
    let t2 := (getChunksFromSummaries o summaries emb).2
    if chunks_from_summaries.length < 3 then
      let excl := chunks_from_summaries.map (fun c => toString c.oid)
      let chunks := chunks_from_summaries ++ (directChunkSearch o emb excl).1
      let processed_chunks := processChunks chunks
      (.ok { chunks := processed_chunks
             summaries := summaries
             metadata :=
               { total_chunks := processed_chunks.length
                 summary_count := summaries.length
                 search_type := "hybrid" } },
       t1 ++ t2 ++ (directChunkSearch o emb excl).2)
    else
      let processed_chunks := processChunks chunks_from_summaries
      (.ok { chunks := processed_chunks
             summaries := summaries
             metadata :=
               { total_chunks := processed_chunks.length
                 summary_count := summaries.length
                 search_type := "hybrid" } },
       t1 ++ t2)

end QueryProcessor

namespace ResponseGenerator

/-- The nested `metadata` dict of a citation
(`response_generator.py` lines 224–233, 241–251). -/
structure CitationMeta where
  document_path : String
  metadata : Meta
  confidence : ℚ
  deriving DecidableEq, Repr

/-- A citation dict: `{"content": ..., "metadata": {...}}`. -/
structure Citation where
  content : String
  metadata : CitationMeta
  deriving DecidableEq, Repr

/-- The `sources_used` counts; the chunks-only branch stores no
`summaries` key. -/
structure SourcesUsed where
  summaries : Option Nat := none
  chunks : Nat
  deriving DecidableEq, Repr

/-- The response `metadata` dict, as a record of the keys the retrieval
core ever writes; `extra` holds the caller-supplied metadata merged in by
`generate_response` (assumed not to collide with the named keys). -/
structure RespMeta where
  error : Option String := none
  error_time : Option String := none
  processed_at : Option String := none
  search_type : Option String := none
  sources_used : Option SourcesUsed := none
  extra : List (String × String) := []
  deriving DecidableEq, Repr

/-- A response dict: answer, citations, metadata, confidence. -/
structure Response where
  answer : String
  citations : List Citation
  metadata : RespMeta
  confidence : ℚ
  deriving DecidableEq, Repr

/-- Model of `ResponseGenerator._create_chunk_citations` (lines 239–251). -/
def createChunkCitations (chunks : List PChunk) : List Citation :=
  chunks.map fun chunk =>
    { content := chunk.content
      metadata :=
        { document_path := chunk.metadata.component_path.getD ""
          metadata := chunk.metadata
          confidence := chunk.score } }

/-- Model of `ResponseGenerator._create_citations` (lines 214–237): one citation per
summary (document path the literal `"summary"`, fixed confidence `0.9`),
then the chunk citations. -/
def createCitations (summaries : List Summary) (chunks : List PChunk) :
    List Citation :=
  (summaries.map fun summary =>
    { content := summary.summary.getD ""
      metadata :=
        { document_path := "summary"
          metadata := summary.metadata.getD {}
          confidence := (9/10 : ℚ) } })
  ++ createChunkCitations chunks

/-- Model of `ResponseGenerator._calculate_confidence` (lines 253–273). -/
def calculateConfidence (citations : List Citation)
    (summaries : List Summary) : ℚ :=
  if citations = [] then 0
  else
    let scores : List ℚ := if summaries ≠ [] then [9/10] else []
    let citation_scores := citations.map (·.metadata.confidence)
    let scores :=
      scores ++ (if citation_scores ≠ [] then [pyMean citation_scores] else [])
    min (19/20) (pyMean scores)

/-- Model of `ResponseGenerator._calculate_chunk_confidence` (lines 275–281). -/
def calculateChunkConfidence (citations : List Citation) : ℚ :=
  if citations = [] then 0
  else min (19/20) (pyMean (citations.map (·.metadata.confidence)))

/-- Model of `ResponseGenerator._create_comprehensive_context` (lines 190–212):
every summary text, then every chunk text (surrounding template whitespace
elided). -/
def createComprehensiveContext (summaries : List Summary)
    (chunks : List PChunk) : String :=
  String.intercalate "\n\n"
    ((summaries.map fun s => "Summary:\n" ++ s.summary.getD "")
      ++ (chunks.map fun c => "Detail:\n" ++ c.content))

/-- Model of `ResponseGenerator._format_chunks_for_prompt` (lines 283–293):
numbered chunk excerpts (template whitespace elided). -/
def formatChunksForPrompt (chunks : List PChunk) : String :=
  String.intercalate "\n"
    ((List.enumFrom 1 chunks).map fun ic =>
      "Source " ++ toString ic.1 ++ ":\n" ++ ic.2.content)

/-- The fixed requirement text shared in spirit by both prompts: a direct
concise answer, plain text, acknowledge gaps (template lines elided to a
marker; no claim inspects the prompt text). -/
def promptRequirements : String :=
  "Requirements:\n1. Answer directly and concisely\n2. Use only information from the provided context\n3. Acknowledge missing information\n4. Plain text only"

/-- The prompt of `_generate_comprehensive_response` (lines 87–111). -/
def comprehensivePrompt (query context : String) : String :=
  "Answer the following question using the provided context.\n\nQuestion: "
    ++ query ++ "\n\nContext:\n" ++ context ++ "\n\n" ++ promptRequirements
    ++ "\n\nAnswer:\n"

/-- The prompt of `_generate_chunks_response` (lines 144–168). -/
def chunksPrompt (query info : String) : String :=
  "Answer the following question using only the provided information.\n\nQuestion: "
    ++ query ++ "\n\nInformation:\n" ++ info ++ "\n\n" ++ promptRequirements
    ++ "\n\nAnswer:\n"

/-- Model of `ResponseGenerator._generate_comprehensive_response` (lines 74–132):
one completion call over the summaries-then-chunks context; its
`try`/`except` re-raises, so an LLM failure is an `.error`. -/
def generateComprehensiveResponse (o : Oracle) (query : String)
    (summaries : List Summary) (chunks : List PChunk) :
    Except String Response × List QEvent :=
  let prompt := comprehensivePrompt query
    (createComprehensiveContext summaries chunks)
  match o.llm prompt with
  | .error e => (.error e, [.llmQ prompt])
  | .ok answer =>
    let citations := createCitations summaries chunks
    (.ok { answer := answer
           citations := citations
           metadata :=
             { sources_used :=
                 some { summaries := some summaries.length
                        chunks := chunks.length } }
           confidence := calculateConfidence citations summaries },
     [.llmQ prompt])

/-- Model of `ResponseGenerator._generate_chunks_response` (lines 134–188). -/
def generateChunksResponse (o : Oracle) (query : String)
    (chunks : List PChunk) : Except String Response × List QEvent :=
  let prompt := chunksPrompt query (formatChunksForPrompt chunks)
  match o.llm prompt with
  | .error e => (.error e, [.llmQ prompt])
  | .ok answer =>
    let citations := createChunkCitations chunks
    (.ok { answer := answer
           citations := citations
           metadata :=
             { sources_used := some { chunks := chunks.length } }
           confidence := calculateChunkConfidence citations },
     [.llmQ prompt])

/-- Model of `ResponseGenerator._create_no_content_response` (lines 295–304). -/
def createNoContentResponse : Response :=
  { answer := "I apologize, but I couldn't find relevant information to answer your question accurately."
    citations := []
    metadata := { error := some "No relevant content found" }
    confidence := 0 }

/-- Model of `ResponseGenerator._create_error_response` (lines 306–316): fixed
apology, empty citations, confidence `0.0`, metadata with the error
description and the `datetime.utcnow().isoformat()` timestamp. -/
def createErrorResponse (o : Oracle) (error : String) : Response :=
  { answer := "I apologize, but I encountered an error while processing your question."
    citations := []
    metadata := { error := some error, error_time := some o.now }
    confidence := 0 }

/-- Model of `ResponseGenerator.generate_response` (lines 36–72): terminal
no-content response when both evidence sets are empty (no completion
call); otherwise the comprehensive branch when any summary is present,
else the chunks-only branch; on success stamp `processed_at`,
`search_type` and the caller metadata; any exception from a branch is
caught and becomes `_create_error_response`. -/
def generateResponse (o : Oracle) (query : String)
    (search_result : QueryProcessor.SearchResult)
    (metadata : Option (List (String × String))) :
    Response × List QEvent :=
  if search_result.chunks = [] ∧ search_result.summaries = [] then
    (createNoContentResponse, [])
  else
    let r :=
      if search_result.summaries ≠ [] then
        generateComprehensiveResponse o query search_result.summaries
          search_result.chunks
      else
        generateChunksResponse o query search_result.chunks
    match r.1 with
    | .error e => (createErrorResponse o e, r.2)
    | .ok response =>
      ({ response with
          metadata :=
            { response.metadata with
                processed_at := some o.now
                search_type := some search_result.metadata.search_type
                extra := metadata.getD [] } },
       r.2)

end ResponseGenerator

namespace RAGSystem

open ResponseGenerator in
/-- Model of `RAGSystem.process_query` (`rag_system.py` lines 27–63): search, then
synthesize, then overwrite `processed_at` and `sources_used`; any exception
raised out of the chain (in this model: a re-raised search failure, since
`generate_response` catches its own) is converted to the top-level error
dict `{answer, citations: [], confidence: 0.0, metadata: {error}}`. -/
def processQuery (o : Oracle) (query : String)
    (metadata : Option (List (String × String))) : Response :=
  match (QueryProcessor.search o query).1 with
  | .error e =>
    { answer := "I apologize, but I encountered an error processing your question."
      citations := []
      metadata := { error := some e }
      confidence := 0 }
  | .ok search_results =>
    let response := (generateResponse o query search_results metadata).1
    { response with
        metadata :=
          { response.metadata with
              processed_at := some o.now
              sources_used :=
                some { summaries := some search_results.summaries.length
                       chunks := search_results.chunks.length } } }

end RAGSystem

/-! ### Spec-side definitions (refinement targets)

These definitions follow the spec's words, to be compared with the
definitions translated from the source. -/

/-- Spec-side formula (spec §4.3): chunks-only confidence is the mean of
all citation confidences capped at 0.95, and 0.0 for zero citations. -/
def specChunksOnlyConfidence (citations : List ResponseGenerator.Citation) : ℚ :=
  if citations = [] then 0
  else min (19/20) (pyMean (citations.map (·.metadata.confidence)))

/-- Spec-side formula (spec §4.3): comprehensive confidence is the mean of
a component list holding 0.9 when any summary is present and the mean of
all citation confidences when any citation exists, capped at 0.95. -/
def specComprehensiveConfidence (citations : List ResponseGenerator.Citation)
    (summaries : List Summary) : ℚ :=
  min (19/20) (pyMean
    ((if summaries ≠ [] then [(9/10 : ℚ)] else [])
      ++ (if citations ≠ []
            then [pyMean (citations.map (·.metadata.confidence))] else [])))

/-- Spec-side citation for a summary (spec §4.3): fixed confidence 0.9,
content the summary text, document path the literal marker `"summary"`. -/
def specSummaryCitation (s : Summary) : ResponseGenerator.Citation :=
  { content := s.summary.getD ""
    metadata :=
      { document_path := "summary"
        metadata := s.metadata.getD {}
        confidence := (9/10 : ℚ) } }

/-- Spec-side citation for a chunk (spec §4.3): confidence the chunk's
retrieval score, content the chunk text, document path the chunk's
component path. -/
def specChunkCitation (c : PChunk) : ResponseGenerator.Citation :=
  { content := c.content
    metadata :=
      { document_path := c.metadata.component_path.getD ""
        metadata := c.metadata
        confidence := c.score } }

/-! ### Concrete sample inputs for witnesses and counterexamples -/

/-- A sample summary document. -/
def sampleSummary : Summary :=
  { oid := 1, root_id := some 7, summary := some "overview",
    metadata := some {}, score := some (4/5) }

/-- Sample chunk documents with distinct contents and descending scores. -/
def chunkA : StoreChunk := { oid := 2, content := "alpha", score := some (3/5) }

def chunkB : StoreChunk := { oid := 3, content := "beta", score := some (2/5) }

def chunkC : StoreChunk := { oid := 4, content := "gamma", score := some (1/5) }

/-- A processed chunk with positive score. -/
def samplePChunk : PChunk := { content := "alpha", metadata := {}, score := 3/5 }

/-- A processed chunk with score `0.0` (the store's `searchScore` is passed
through unchecked). -/
def zeroScoreChunk : PChunk := { content := "alpha", metadata := {}, score := 0 }

/-- A search result holding one zero-score chunk and no summaries. -/
def zeroScoreSearchResult : QueryProcessor.SearchResult :=
  { chunks := [zeroScoreChunk], summaries := []
    metadata := { total_chunks := 1, summary_count := 0, search_type := "hybrid" } }

/-- A search result holding one positive-score chunk and no summaries. -/
def positiveSearchResult : QueryProcessor.SearchResult :=
  { chunks := [samplePChunk], summaries := []
    metadata := { total_chunks := 1, summary_count := 0, search_type := "hybrid" } }

/-- An empty search result. -/
def emptySearchResult : QueryProcessor.SearchResult :=
  { chunks := [], summaries := []
    metadata := { total_chunks := 0, summary_count := 0, search_type := "hybrid" } }

/-- An oracle whose stores are empty and whose LLM answers; the direct
search returns one chunk. -/
def emptyStoreOracle : Oracle :=
  { embedQuery := fun _ => .ok []
    summarySearch := fun _ => .ok []
    anchoredChunkSearch := fun _ _ _ => .ok []
    fallbackChunkSearch := fun _ => .ok []
    directChunkSearch := fun _ _ => .ok [chunkA]
    llm := fun _ => .ok "answer"
    now := "t0" }

/-- An oracle whose anchored search returns three chunks. -/
def threeChunkOracle : Oracle :=
  { embedQuery := fun _ => .ok []
    summarySearch := fun _ => .ok [sampleSummary]
    anchoredChunkSearch := fun _ _ _ => .ok [chunkA, chunkB, chunkC]
    fallbackChunkSearch := fun _ => .ok []
    directChunkSearch := fun _ _ => .ok []
    llm := fun _ => .error "llm down"
    now := "t0" }

/-- An oracle whose anchored search finds nothing but whose fallback
search returns one chunk. -/
def fallbackOracle : Oracle :=
  { embedQuery := fun _ => .ok []
    summarySearch := fun _ => .ok [sampleSummary]
    anchoredChunkSearch := fun _ _ _ => .ok []
    fallbackChunkSearch := fun _ => .ok [chunkA]
    directChunkSearch := fun _ _ => .ok []
    llm := fun _ => .ok "answer"
    now := "t0" }

/-- An oracle whose LLM call succeeds (stores irrelevant). -/
def okLlmOracle : Oracle :=
  { embedQuery := fun _ => .ok []
    summarySearch := fun _ => .ok []
    anchoredChunkSearch := fun _ _ _ => .ok []
    fallbackChunkSearch := fun _ => .ok []
    directChunkSearch := fun _ _ => .ok []
    llm := fun _ => .ok "answer"
    now := "t0" }

/-- An oracle with one summary, no chunks anywhere, and a failing LLM. -/
def llmFailOracle : Oracle :=
  { embedQuery := fun _ => .ok []
    summarySearch := fun _ => .ok [sampleSummary]
    anchoredChunkSearch := fun _ _ _ => .ok []
    fallbackChunkSearch := fun _ => .ok []
    directChunkSearch := fun _ _ => .ok []
    llm := fun _ => .error "llm down"
    now := "t0" }

/-- An oracle whose embedding call raises. -/
def embedFailOracle : Oracle :=
  { embedQuery := fun _ => .error "boom"
    summarySearch := fun _ => .ok []
    anchoredChunkSearch := fun _ _ _ => .ok []
    fallbackChunkSearch := fun _ => .ok []
    directChunkSearch := fun _ _ => .ok []
    llm := fun _ => .ok "answer"
    now := "t0" }

/-! ### Lemmas about the text model (`_normalize_content`) -/

theorem toNat_ofNat_valid {n : Nat} (h : n.isValidChar) :
    (Char.ofNat n).toNat = n := by
  rw [Char.ofNat, dif_pos h]
  rfl

theorem lowerChar_toNat (c : Char) :
    (lowerChar c).toNat =
      if 65 ≤ c.toNat ∧ c.toNat ≤ 90 then c.toNat + 32 else c.toNat := by
  unfold lowerChar
  split
  · next h => exact toNat_ofNat_valid (Or.inl (by omega))
  · rfl

theorem lowerChar_eq_of_not {c : Char} (h : ¬(65 ≤ c.toNat ∧ c.toNat ≤ 90)) :
    lowerChar c = c := by
  unfold lowerChar
  exact if_neg h

theorem lowerChar_idem (c : Char) : lowerChar (lowerChar c) = lowerChar c := by
  by_cases h : 65 ≤ c.toNat ∧ c.toNat ≤ 90
  · apply lowerChar_eq_of_not
    rw [lowerChar_toNat, if_pos h]
    omega
  · simp only [lowerChar_eq_of_not h]

theorem isPySpace_toNat (c : Char) :
    isPySpace c = true ↔
      (c.toNat = 32 ∨ c.toNat = 9 ∨ c.toNat = 10 ∨ c.toNat = 13 ∨
        c.toNat = 11 ∨ c.toNat = 12) := by
  unfold isPySpace
  exact decide_eq_true_iff

/-- Each piece produced by `splitOnP` consists of elements of the original
list on which the predicate is false. -/
theorem splitOnP_mem_forall {p : Char → Bool} :
    ∀ (l : List Char) (w : List Char), w ∈ l.splitOnP p →
      ∀ c ∈ w, c ∈ l ∧ p c = false
  | [], w, hw, c, hc => by
      rw [List.splitOnP_nil] at hw
      simp only [List.mem_singleton] at hw
      subst hw
      simp at hc
  | a :: l, w, hw, c, hc => by
      rw [List.splitOnP_cons] at hw
      by_cases hpa : p a
      · rw [if_pos hpa] at hw
        rcases List.mem_cons.mp hw with h | h
        · subst h; simp at hc
        · obtain ⟨hcl, hpc⟩ := splitOnP_mem_forall l w h c hc
          exact ⟨List.mem_cons_of_mem _ hcl, hpc⟩
      · rw [if_neg hpa] at hw
        obtain ⟨hd, tl, het⟩ :=
          List.exists_cons_of_ne_nil (List.splitOnP_ne_nil p l)
        rw [het, List.modifyHead_cons] at hw
        rcases List.mem_cons.mp hw with h1 | h1
        · subst h1
          rcases List.mem_cons.mp hc with h2 | h2
          · subst h2
            exact ⟨List.mem_cons_self _ _, by simpa using hpa⟩
          · obtain ⟨hcl, hpc⟩ := splitOnP_mem_forall l hd
              (het ▸ List.mem_cons_self hd tl) c h2
            exact ⟨List.mem_cons_of_mem _ hcl, hpc⟩
        · obtain ⟨hcl, hpc⟩ := splitOnP_mem_forall l w
            (het ▸ List.mem_cons_of_mem hd h1) c hc
          exact ⟨List.mem_cons_of_mem _ hcl, hpc⟩

/-- Splitting the space-joined list of non-empty space-free words recovers
the words. -/
theorem pyWords_joinWords :
    ∀ ws : List (List Char),
      (∀ w ∈ ws, w ≠ [] ∧ ∀ c ∈ w, isPySpace c = false) →
      pyWords (joinWords ws) = ws
  | [], _ => by
      simp [pyWords, joinWords, List.splitOnP_nil]
  | [w], h => by
      obtain ⟨hne, hw⟩ := h w (List.mem_singleton.mpr rfl)
      unfold pyWords joinWords
      rw [List.splitOnP_eq_single _ _ (fun c hc => by simp [hw c hc])]
      simp [hne]
  | w :: w2 :: ws, h => by
      obtain ⟨hne, hw⟩ := h w (List.mem_cons_self _ _)
      have hrest : ∀ v ∈ w2 :: ws, v ≠ [] ∧ ∀ c ∈ v, isPySpace c = false :=
        fun v hv => h v (List.mem_cons_of_mem _ hv)
      unfold pyWords joinWords
      rw [List.splitOnP_first _ _ (fun c hc => by simp [hw c hc]) ' '
        (by decide) (joinWords (w2 :: ws))]
      have ih := pyWords_joinWords (w2 :: ws) hrest
      unfold pyWords at ih
      simp only [List.filter_cons, ih]
      simp [hne]

/-- Every character of the space-join is a character of one of the words or
the separating space. -/
theorem mem_joinWords :
    ∀ {ws : List (List Char)} {c : Char}, c ∈ joinWords ws →
      (∃ w ∈ ws, c ∈ w) ∨ c = ' '
  | [], c, hc => by simp [joinWords] at hc
  | [w], c, hc => Or.inl ⟨w, List.mem_singleton.mpr rfl, hc⟩
  | w :: w2 :: ws, c, hc => by
      rw [joinWords, List.mem_append] at hc
      rcases hc with h | h
      · exact Or.inl ⟨w, List.mem_cons_self _ _, h⟩
      · rcases List.mem_cons.mp h with h | h
        · exact Or.inr h
        · rcases mem_joinWords h with ⟨v, hv, hcv⟩ | h
          · exact Or.inl ⟨v, List.mem_cons_of_mem _ hv, hcv⟩
          · exact Or.inr h

theorem map_eq_self_of_forall {l : List Char} {f : Char → Char}
    (h : ∀ c ∈ l, f c = c) : l.map f = l := by
  induction l with
  | nil => rfl
  | cons a l ih =>
    simp only [List.map_cons, h a (List.mem_cons_self _ _),
      ih (fun c hc => h c (List.mem_cons_of_mem _ hc))]

/-- Idempotence: `_normalize_content` is idempotent. -/
theorem normalizeContent_idem (s : String) :
    normalizeContent (normalizeContent s) = normalizeContent s := by
  unfold normalizeContent
  apply congrArg String.mk
  have hwords : ∀ w ∈ pyWords (s.data.map lowerChar),
      w ≠ [] ∧ ∀ c ∈ w, isPySpace c = false := by
    intro w hw
    unfold pyWords at hw
    have hmem := List.mem_filter.mp hw
    refine ⟨by simpa using hmem.2, fun c hc => ?_⟩
    exact (splitOnP_mem_forall _ w hmem.1 c hc).2
  have hfix : ∀ c ∈ joinWords (pyWords (s.data.map lowerChar)),
      lowerChar c = c := by
    intro c hc
    rcases mem_joinWords hc with ⟨w, hw, hcw⟩ | hsp
    · have hcl : c ∈ s.data.map lowerChar := by
        unfold pyWords at hw
        exact (splitOnP_mem_forall _ w (List.mem_filter.mp hw).1 c hcw).1
      obtain ⟨c0, _, rfl⟩ := List.mem_map.mp hcl
      exact lowerChar_idem c0
    · subst hsp; decide
  rw [show (String.mk (joinWords (pyWords (s.data.map lowerChar)))).data =
        joinWords (pyWords (s.data.map lowerChar)) from rfl]
  rw [map_eq_self_of_forall hfix]
  rw [pyWords_joinWords _ hwords]

/-! ### Lemmas about the Evidence Assembler (`_process_chunks`) -/

namespace QueryProcessor

@[simp] theorem mkProcessed_content (c : StoreChunk) :
    (mkProcessed c).content = c.content := rfl

theorem mkProcessedP_eq (p : PChunk) : mkProcessedP p = p := rfl

/-- What the dedup loop keeps for key `k`: nothing if `k` was already seen,
otherwise the processed first chunk of the input whose normalized content
is `k` (if any). -/
theorem dedupChunks_filter_key (k : String) :
    ∀ (cs : List StoreChunk) (seen : List String),
      (dedupChunks cs seen).filter (fun p => normalizeContent p.content == k)
        = if k ∈ seen then []
          else ((cs.find? fun c => normalizeContent c.content == k).map
            mkProcessed).toList
  | [], seen => by
      simp [dedupChunks]
  | c :: cs, seen => by
      unfold dedupChunks
      by_cases hseen : normalizeContent c.content ∈ seen
      · rw [if_pos hseen, dedupChunks_filter_key k cs seen]
        by_cases hk : normalizeContent c.content = k
        · subst hk
          rw [if_pos hseen, if_pos hseen]
        · rw [List.find?_cons_of_neg _ (by simpa using hk)]
      · rw [if_neg hseen, List.filter_cons]
        by_cases hk : normalizeContent c.content = k
        · subst hk
          rw [if_pos (by simp), dedupChunks_filter_key _ cs,
            if_pos (List.mem_cons_self _ _), if_neg hseen,
            List.find?_cons_of_pos _ (by simp)]
          rfl
        · rw [if_neg (by simpa using hk), dedupChunks_filter_key k cs,
            List.find?_cons_of_neg _ (by simpa using hk)]
          have : (k ∈ normalizeContent c.content :: seen) ↔ k ∈ seen := by
            rw [List.mem_cons]
            exact ⟨fun h => h.elim (fun h1 => absurd h1.symm hk) id, Or.inr⟩
          by_cases hks : k ∈ seen
          · rw [if_pos (this.mpr hks), if_pos hks]
          · rw [if_neg (fun h => hks (this.mp h)), if_neg hks]

/-- The dedup loop output is an order-preserving selection from the
processed input. -/
theorem dedupChunks_sublist :
    ∀ (cs : List StoreChunk) (seen : List String),
      List.Sublist (dedupChunks cs seen) (cs.map mkProcessed)
  | [], _ => by simp [dedupChunks]
  | c :: cs, seen => by
      unfold dedupChunks
      by_cases hseen : normalizeContent c.content ∈ seen
      · rw [if_pos hseen]
        exact (dedupChunks_sublist cs seen).cons _
      · rw [if_neg hseen]
        exact (dedupChunks_sublist cs _).cons₂ _

/-- The normalized keys of the dedup output are distinct and none of them
was in the `seen` set. -/
theorem dedupChunks_keys_nodup :
    ∀ (cs : List StoreChunk) (seen : List String),
      ((dedupChunks cs seen).map fun p => normalizeContent p.content).Nodup ∧
        ∀ p ∈ dedupChunks cs seen, normalizeContent p.content ∉ seen
  | [], _ => by simp [dedupChunks]
  | c :: cs, seen => by
      unfold dedupChunks
      by_cases hseen : normalizeContent c.content ∈ seen
      · rw [if_pos hseen]
        exact dedupChunks_keys_nodup cs seen
      · rw [if_neg hseen]
        obtain ⟨ih1, ih2⟩ := dedupChunks_keys_nodup cs
          (normalizeContent c.content :: seen)
        refine ⟨List.nodup_cons.mpr ⟨?_, ih1⟩, ?_⟩
        · intro hmem
          obtain ⟨p, hp, hkey⟩ := List.mem_map.mp hmem
          exact ih2 p hp (by rw [hkey]; exact List.mem_cons_self _ _)
        · intro p hp
          rcases List.mem_cons.mp hp with h | h
          · subst h
            simpa using hseen
          · exact fun hmem => ih2 p h (List.mem_cons_of_mem _ hmem)

/-- On a list whose normalized keys are distinct and disjoint from `seen`,
the dedup loop of a second `_process_chunks` run keeps everything. -/
theorem dedupChunksP_eq_self :
    ∀ (ps : List PChunk) (seen : List String),
      ((ps.map fun p => normalizeContent p.content).Nodup) →
      (∀ p ∈ ps, normalizeContent p.content ∉ seen) →
      dedupChunksP ps seen = ps
  | [], _, _, _ => rfl
  | p :: ps, seen, hnd, hfresh => by
      unfold dedupChunksP
      rw [if_neg (hfresh p (List.mem_cons_self _ _)), mkProcessedP_eq]
      congr 1
      rw [List.map_cons, List.nodup_cons] at hnd
      refine dedupChunksP_eq_self ps _ hnd.2 ?_
      intro q hq hmem
      rcases List.mem_cons.mp hmem with hkey | hkey
      · exact hnd.1
          (hkey ▸ List.mem_map_of_mem (fun r => normalizeContent r.content) hq)
      · exact hfresh q (List.mem_cons_of_mem _ hq) hkey

/-- Inserting into a list moves `a` past strictly greater scores only, so
for any fixed score the filtered sublist gains `a` at the front exactly
when `a` has that score. -/
theorem filter_score_orderedInsert (q : ℚ) (a : PChunk) :
    ∀ l : List PChunk,
      (List.orderedInsert scoreGE a l).filter (fun p => p.score == q)
        = if a.score = q then a :: l.filter (fun p => p.score == q)
          else l.filter (fun p => p.score == q)
  | [] => by
      by_cases h : a.score = q <;>
        simp [List.orderedInsert, List.filter_cons, h]
  | b :: l => by
      rw [List.orderedInsert]
      by_cases hab : scoreGE a b
      · rw [if_pos hab]
        simp only [List.filter_cons]
        by_cases h : a.score = q <;> simp [h]
      · rw [if_neg hab]
        have hlt : a.score < b.score := lt_of_not_le hab
        simp only [List.filter_cons, filter_score_orderedInsert q a l]
        by_cases h : a.score = q
        · have hb : ¬(b.score = q) := by
            intro hbq
            rw [h] at hlt
            rw [hbq] at hlt
            exact lt_irrefl q hlt
          simp [h, hb]
        · by_cases hb : b.score = q <;> simp [h, hb]

/-- The stable sort does not reorder chunks of equal score. -/
theorem filter_score_insertionSort (q : ℚ) :
    ∀ l : List PChunk,
      (List.insertionSort scoreGE l).filter (fun p => p.score == q)
        = l.filter (fun p => p.score == q)
  | [] => rfl
  | a :: l => by
      rw [List.insertionSort, filter_score_orderedInsert, List.filter_cons]
      by_cases h : a.score = q
      · rw [if_pos h, if_pos (by simpa using h), filter_score_insertionSort q l]
      · rw [if_neg h, if_neg (by simpa using h), filter_score_insertionSort q l]

end QueryProcessor

/-! ### Lemmas about traces and confidence arithmetic -/

theorem searchSummaries_trace (o : Oracle) (emb : Embedding) :
    (QueryProcessor.searchSummaries o emb).2 = [QEvent.summaryQ 5] := by
  unfold QueryProcessor.searchSummaries
  cases o.summarySearch emb <;> rfl

theorem directChunkSearch_trace (o : Oracle) (emb : Embedding)
    (excl : List String) :
    (QueryProcessor.directChunkSearch o emb excl).2
      = [QEvent.directQ excl 10 5] := by
  unfold QueryProcessor.directChunkSearch
  cases o.directChunkSearch emb excl <;> rfl

theorem getChunksFromSummaries_countP_isDirect (o : Oracle)
    (ss : List Summary) (emb : Embedding) :
    (QueryProcessor.getChunksFromSummaries o ss emb).2.countP
      QEvent.isDirect = 0 := by
  unfold QueryProcessor.getChunksFromSummaries
  by_cases hss : ss = []
  · rw [if_pos hss]
    rfl
  · rw [if_neg hss]
    cases o.anchoredChunkSearch emb (ss.map (·.oid)) (ss.filterMap (·.root_id)) with
    | error e => rfl
    | ok results =>
      dsimp only
      by_cases hres : results ≠ []
      · rw [if_pos hres]
        rfl
      · rw [if_neg hres]
        cases o.fallbackChunkSearch emb <;> rfl


theorem pyMean_pos {l : List ℚ} (hne : l ≠ []) (hpos : ∀ x ∈ l, 0 < x) :
    0 < pyMean l := by
  unfold pyMean
  apply div_pos (List.sum_pos l hpos hne)
  exact_mod_cast List.length_pos.mpr hne

theorem calculateChunkConfidence_bounds
    {citations : List ResponseGenerator.Citation} (hne : citations ≠ [])
    (hpos : ∀ c ∈ citations, 0 < c.metadata.confidence) :
    0 < ResponseGenerator.calculateChunkConfidence citations ∧
      ResponseGenerator.calculateChunkConfidence citations ≤ 19/20 := by
  unfold ResponseGenerator.calculateChunkConfidence
  rw [if_neg hne]
  refine ⟨lt_min (by norm_num) ?_, min_le_left _ _⟩
  apply pyMean_pos (by simpa using hne)
  intro x hx
  obtain ⟨c, hc, rfl⟩ := List.mem_map.mp hx
  exact hpos c hc

theorem calculateConfidence_bounds
    {citations : List ResponseGenerator.Citation} {summaries : List Summary}
    (hne : citations ≠ []) (hss : summaries ≠ [])
    (hpos : ∀ c ∈ citations, 0 < c.metadata.confidence) :
    0 < ResponseGenerator.calculateConfidence citations summaries ∧
      ResponseGenerator.calculateConfidence citations summaries ≤ 19/20 := by
  have hmap : citations.map (·.metadata.confidence) ≠ [] := by simpa using hne
  have hmean : 0 < pyMean (citations.map (·.metadata.confidence)) := by
    apply pyMean_pos hmap
    intro x hx
    obtain ⟨c, hc, rfl⟩ := List.mem_map.mp hx
    exact hpos c hc
  have hexp : ResponseGenerator.calculateConfidence citations summaries
      = min (19/20)
          (pyMean [(9/10 : ℚ), pyMean (citations.map (·.metadata.confidence))]) := by
    simp [ResponseGenerator.calculateConfidence, hne, hss, hmap]
  rw [hexp]
  refine ⟨lt_min (by norm_num) ?_, min_le_left _ _⟩
  apply pyMean_pos (by simp)
  intro x hx
  rcases List.mem_cons.mp hx with h | h
  · rw [h]; norm_num
  · rw [List.mem_singleton.mp h]; exact hmean

theorem createChunkCitations_pos {cs : List PChunk}
    (hpos : ∀ c ∈ cs, 0 < c.score) :
    ∀ cit ∈ ResponseGenerator.createChunkCitations cs,
      0 < cit.metadata.confidence := by
  intro cit hcit
  unfold ResponseGenerator.createChunkCitations at hcit
  obtain ⟨c, hc, rfl⟩ := List.mem_map.mp hcit
  exact hpos c hc

theorem createCitations_pos {ss : List Summary} {cs : List PChunk}
    (hpos : ∀ c ∈ cs, 0 < c.score) :
    ∀ cit ∈ ResponseGenerator.createCitations ss cs,
      0 < cit.metadata.confidence := by
  intro cit hcit
  unfold ResponseGenerator.createCitations at hcit
  rcases List.mem_append.mp hcit with h | h
  · obtain ⟨s, _, rfl⟩ := List.mem_map.mp h
    norm_num
  · exact createChunkCitations_pos hpos cit h

theorem createCitations_ne_nil {ss : List Summary} {cs : List PChunk}
    (hss : ss ≠ []) : ResponseGenerator.createCitations ss cs ≠ [] := by
  cases ss with
  | nil => exact absurd rfl hss
  | cons s ss => simp [ResponseGenerator.createCitations]

theorem createChunkCitations_ne_nil {cs : List PChunk} (hcs : cs ≠ []) :
    ResponseGenerator.createChunkCitations cs ≠ [] := by
  simpa [ResponseGenerator.createChunkCitations] using hcs

/-- Case analysis of the synthesizer's outcome: terminal no-content,
terminal error, comprehensive success, or chunks-only success. -/
theorem generateResponse_characterize (o : Oracle) (q : String)
    (sr : QueryProcessor.SearchResult)
    (md : Option (List (String × String))) :
    ((ResponseGenerator.generateResponse o q sr md).1
        = ResponseGenerator.createNoContentResponse ∧
      sr.chunks = [] ∧ sr.summaries = []) ∨
    (∃ e, (ResponseGenerator.generateResponse o q sr md).1
        = ResponseGenerator.createErrorResponse o e) ∨
    (sr.summaries ≠ [] ∧
      (ResponseGenerator.generateResponse o q sr md).1.citations
        = ResponseGenerator.createCitations sr.summaries sr.chunks ∧
      (ResponseGenerator.generateResponse o q sr md).1.confidence
        = ResponseGenerator.calculateConfidence
            (ResponseGenerator.createCitations sr.summaries sr.chunks)
            sr.summaries) ∨
    (sr.summaries = [] ∧ sr.chunks ≠ [] ∧
      (ResponseGenerator.generateResponse o q sr md).1.citations
        = ResponseGenerator.createChunkCitations sr.chunks ∧
      (ResponseGenerator.generateResponse o q sr md).1.confidence
        = ResponseGenerator.calculateChunkConfidence
            (ResponseGenerator.createChunkCitations sr.chunks)) := by
  by_cases hempty : sr.chunks = [] ∧ sr.summaries = []
  · left
    refine ⟨?_, hempty.1, hempty.2⟩
    rw [ResponseGenerator.generateResponse, if_pos hempty]
  · right
    by_cases hss : sr.summaries = []
    · have hcs : sr.chunks ≠ [] := fun h => hempty ⟨h, hss⟩
      cases hllm : o.llm (ResponseGenerator.chunksPrompt q
          (ResponseGenerator.formatChunksForPrompt sr.chunks)) with
      | error e =>
          exact Or.inl ⟨e, by
            simp [ResponseGenerator.generateResponse, hss, hcs,
              ResponseGenerator.generateChunksResponse, hllm]⟩
      | ok ans =>
          refine Or.inr (Or.inr ⟨hss, hcs, ?_, ?_⟩) <;>
            simp [ResponseGenerator.generateResponse, hss, hcs,
              ResponseGenerator.generateChunksResponse, hllm]
    · cases hllm : o.llm (ResponseGenerator.comprehensivePrompt q
          (ResponseGenerator.createComprehensiveContext sr.summaries sr.chunks)) with
      | error e =>
          exact Or.inl ⟨e, by
            simp [ResponseGenerator.generateResponse, hss,
              ResponseGenerator.generateComprehensiveResponse, hllm]⟩
      | ok ans =>
          refine Or.inr (Or.inl ⟨hss, ?_, ?_⟩) <;>
            simp [ResponseGenerator.generateResponse, hss,
              ResponseGenerator.generateComprehensiveResponse, hllm]

/-! ### Claim theorems -/

/-- C7: for every input chunk list and normalized-content key, the Evidence
Assembler (`_process_chunks`) retains exactly one chunk with that key — the
first occurrence in input order — processed with that first-seen chunk's
score (0.7 substituted when the chunk has no score); later chunks whose
normalized content coincides are dropped. -/
theorem claim7_dedup_first_occurrence (cs : List StoreChunk) (k : String) :
    (QueryProcessor.processChunks cs).filter
        (fun p => normalizeContent p.content == k)
      = ((cs.find? fun c => normalizeContent c.content == k).map
          QueryProcessor.mkProcessed).toList := by
  unfold QueryProcessor.processChunks
  have hperm := (List.perm_insertionSort QueryProcessor.scoreGE
      (QueryProcessor.dedupChunks cs [])).filter
      (fun p => normalizeContent p.content == k)
  rw [QueryProcessor.dedupChunks_filter_key k cs []] at hperm
  rw [if_neg (List.not_mem_nil k)] at hperm
  cases hfind : cs.find? (fun c => normalizeContent c.content == k) with
  | none =>
      rw [hfind] at hperm
      simpa using hperm
  | some c =>
      rw [hfind] at hperm
      simpa using hperm

/-- C8: the Evidence Assembler's output is sorted by score in descending
order (`scoreGE`), chunks of equal score keep the relative order of the
deduplicated sequence, and that sequence is an order-preserving selection
from the input — so ties preserve input order. -/
theorem claim8_sorted_stable (cs : List StoreChunk) :
    List.Sorted QueryProcessor.scoreGE (QueryProcessor.processChunks cs) ∧
    (∀ q : ℚ,
      (QueryProcessor.processChunks cs).filter (fun p => p.score == q)
        = (QueryProcessor.dedupChunks cs []).filter (fun p => p.score == q)) ∧
    List.Sublist (QueryProcessor.dedupChunks cs [])
      (cs.map QueryProcessor.mkProcessed) :=
  ⟨List.sorted_insertionSort _ _,
   fun q => QueryProcessor.filter_score_insertionSort q _,
   QueryProcessor.dedupChunks_sublist cs []⟩

/-- C9: in the comprehensive branch the citation list is exactly one
citation per summary (content the summary text, document path the literal
`"summary"`, fixed confidence 0.9) followed by one citation per chunk
(content the chunk text, document path the chunk's component path,
confidence the chunk's retrieval score), so its length is the number of
summaries plus the number of chunks. -/
theorem claim9_citations (summaries : List Summary) (chunks : List PChunk) :
    ResponseGenerator.createCitations summaries chunks
      = summaries.map specSummaryCitation ++ chunks.map specChunkCitation ∧
    (ResponseGenerator.createCitations summaries chunks).length
      = summaries.length + chunks.length := by
  constructor
  · rfl
  · simp [ResponseGenerator.createCitations,
      ResponseGenerator.createChunkCitations]

/-- C10: the Evidence Assembler is idempotent — running `_process_chunks`
over its own output (`processChunksP`, the same source lines executing on
already-processed chunk dicts) changes nothing — and `_normalize_content`
is idempotent on every string. -/
theorem claim10_idempotent :
    (∀ cs : List StoreChunk,
      QueryProcessor.processChunksP (QueryProcessor.processChunks cs)
        = QueryProcessor.processChunks cs) ∧
    (∀ s : String,
      normalizeContent (normalizeContent s) = normalizeContent s) := by
  refine ⟨fun cs => ?_, normalizeContent_idem⟩
  have hperm : List.Perm
      ((QueryProcessor.processChunks cs).map
        (fun p => normalizeContent p.content))
      ((QueryProcessor.dedupChunks cs []).map
        (fun p => normalizeContent p.content)) :=
    (List.perm_insertionSort QueryProcessor.scoreGE _).map _
  have hnodup : ((QueryProcessor.processChunks cs).map
      (fun p => normalizeContent p.content)).Nodup :=
    hperm.nodup_iff.mpr (QueryProcessor.dedupChunks_keys_nodup cs []).1
  unfold QueryProcessor.processChunksP
  rw [QueryProcessor.dedupChunksP_eq_self _ [] hnodup
    (fun p _ => List.not_mem_nil _)]
  exact List.Sorted.insertionSort_eq (List.sorted_insertionSort _ _)

/-- C4: the chunks-only confidence is the mean of all citation confidences
capped at 0.95 (0.0 for zero citations), and the comprehensive branch's
confidence — computed over the citations that branch assembles — is the
mean of the spec's component list (0.9 when a summary is present, the mean
of citation confidences when a citation exists) capped at 0.95. -/
theorem claim4_confidence_formulas :
    (∀ citations : List ResponseGenerator.Citation,
      ResponseGenerator.calculateChunkConfidence citations
        = specChunksOnlyConfidence citations) ∧
    (∀ (summaries : List Summary) (chunks : List PChunk), summaries ≠ [] →
      ResponseGenerator.calculateConfidence
          (ResponseGenerator.createCitations summaries chunks) summaries
        = specComprehensiveConfidence
            (ResponseGenerator.createCitations summaries chunks) summaries) := by
  constructor
  · intro citations
    rfl
  · intro ss cs hss
    have hcit := @createCitations_ne_nil ss cs hss
    have hmap : (ResponseGenerator.createCitations ss cs).map
        (·.metadata.confidence) ≠ [] := by simpa using hcit
    simp [ResponseGenerator.calculateConfidence, specComprehensiveConfidence,
      hcit, hss, hmap]

/-- C6: when both evidence sets are empty the synthesizer returns the fixed
"no content found" answer with confidence exactly 0.0 and empty citations,
and issues no request at all — in particular no completion (LLM) call. -/
theorem claim6_no_content (o : Oracle) (q : String)
    (sr : QueryProcessor.SearchResult) (md : Option (List (String × String)))
    (h1 : sr.chunks = []) (h2 : sr.summaries = []) :
    ResponseGenerator.generateResponse o q sr md
      = (ResponseGenerator.createNoContentResponse, ([] : List QEvent)) ∧
    ResponseGenerator.createNoContentResponse
      = { answer := "I apologize, but I couldn't find relevant information to answer your question accurately."
          citations := []
          metadata := { error := some "No relevant content found" }
          confidence := 0 } :=
  ⟨by rw [ResponseGenerator.generateResponse, if_pos ⟨h1, h2⟩], rfl⟩

/-- C3 (counterexample to the claim as stated): on an evidence set holding
one chunk whose retrieval score is `0.0`, the synthesizer returns
confidence exactly `0.0` with a non-empty citation list, so "confidence is
0.0 iff the citation list is empty" fails. -/
theorem claim3_counterexample :
    (ResponseGenerator.generateResponse okLlmOracle "q"
        zeroScoreSearchResult none).1.confidence = 0 ∧
    (ResponseGenerator.generateResponse okLlmOracle "q"
        zeroScoreSearchResult none).1.citations ≠ [] := by
  constructor
  · have h : (ResponseGenerator.generateResponse okLlmOracle "q"
        zeroScoreSearchResult none).1.confidence
        = min (19/20 : ℚ) (pyMean [(0 : ℚ)]) := by
      simp [ResponseGenerator.generateResponse, zeroScoreSearchResult,
        okLlmOracle, ResponseGenerator.generateChunksResponse,
        ResponseGenerator.calculateChunkConfidence,
        ResponseGenerator.createChunkCitations, zeroScoreChunk]
    rw [h]
    norm_num [pyMean]
  · decide

/-- C3 (amended): provided every chunk score in the evidence set is
positive (retrieval scores are), the synthesizer's confidence lies in
[0.0, 0.95] and is exactly 0.0 iff the citation list is empty. -/
theorem claim3_confidence_bounds (o : Oracle) (q : String)
    (sr : QueryProcessor.SearchResult) (md : Option (List (String × String)))
    (hpos : ∀ c ∈ sr.chunks, 0 < c.score) :
    0 ≤ (ResponseGenerator.generateResponse o q sr md).1.confidence ∧
    (ResponseGenerator.generateResponse o q sr md).1.confidence ≤ 19/20 ∧
    ((ResponseGenerator.generateResponse o q sr md).1.confidence = 0 ↔
      (ResponseGenerator.generateResponse o q sr md).1.citations = []) := by
  rcases generateResponse_characterize o q sr md with
    ⟨h, _, _⟩ | ⟨e, h⟩ | ⟨hss, hcit, hconf⟩ | ⟨hss, hcs, hcit, hconf⟩
  · rw [h]
    refine ⟨le_refl 0, by norm_num [ResponseGenerator.createNoContentResponse], ?_⟩
    simp [ResponseGenerator.createNoContentResponse]
  · rw [h]
    refine ⟨le_refl 0, by norm_num [ResponseGenerator.createErrorResponse], ?_⟩
    simp [ResponseGenerator.createErrorResponse]
  · have hcitne := @createCitations_ne_nil sr.summaries sr.chunks hss
    have hposc := @createCitations_pos sr.summaries sr.chunks hpos
    obtain ⟨h0, h95⟩ := calculateConfidence_bounds hcitne hss hposc
    rw [hcit, hconf]
    refine ⟨le_of_lt h0, h95, ?_, ?_⟩
    · intro hc0
      exact absurd hc0 (ne_of_gt h0)
    · intro hc
      exact absurd hc hcitne
  · have hcitne := @createChunkCitations_ne_nil sr.chunks hcs
    have hposc := @createChunkCitations_pos sr.chunks hpos
    obtain ⟨h0, h95⟩ := calculateChunkConfidence_bounds hcitne hposc
    rw [hcit, hconf]
    refine ⟨le_of_lt h0, h95, ?_, ?_⟩
    · intro hc0
      exact absurd hc0 (ne_of_gt h0)
    · intro hc
      exact absurd hc hcitne

/-- C5 (counterexample to the claim as stated): when the embedding call
raises, the top-level handler of `process_query` returns a response whose
metadata carries no timestamp and whose apology string differs from the
synthesizer's `_create_error_response`, so the top-level error shape is not
"the same terminal error shape as the synthesizer's". -/
theorem claim5_counterexample :
    (RAGSystem.processQuery embedFailOracle "q" none).metadata.error_time
      = none ∧
    (ResponseGenerator.createErrorResponse embedFailOracle "boom").metadata.error_time
      ≠ none ∧
    (RAGSystem.processQuery embedFailOracle "q" none).answer
      ≠ (ResponseGenerator.createErrorResponse embedFailOracle "boom").answer := by
  refine ⟨rfl, by decide, by decide⟩

/-- C5 (amended): `process_query` never propagates an exception — a search
failure is converted by the top-level handler into a well-formed response
(fixed apology, empty citations, confidence 0.0, metadata carrying only
the error description), while a synthesizer failure yields the
synthesizer's terminal error shape (which does carry the timestamp)
augmented with the pipeline's `processed_at` and `sources_used`. -/
theorem claim5_error_shape (o : Oracle) (q : String)
    (md : Option (List (String × String))) :
    (∀ e, (QueryProcessor.search o q).1 = .error e →
      RAGSystem.processQuery o q md
        = { answer := "I apologize, but I encountered an error processing your question."
            citations := []
            metadata := { error := some e }
            confidence := 0 }) ∧
    (∀ sr e, (QueryProcessor.search o q).1 = .ok sr →
      ¬(sr.chunks = [] ∧ sr.summaries = []) →
      (∀ p, o.llm p = .error e) →
      RAGSystem.processQuery o q md
        = { answer := "I apologize, but I encountered an error while processing your question."
            citations := []
            metadata := { error := some e
                          error_time := some o.now
                          processed_at := some o.now
                          sources_used := some
                            { summaries := some sr.summaries.length
                              chunks := sr.chunks.length } }
            confidence := 0 }) := by
  constructor
  · intro e he
    unfold RAGSystem.processQuery
    rw [he]
  · intro sr e hok hne hllm
    unfold RAGSystem.processQuery
    rw [hok]
    by_cases hss : sr.summaries = []
    · have hcs : sr.chunks ≠ [] := fun h => hne ⟨h, hss⟩
      simp [ResponseGenerator.generateResponse, hss, hcs,
        ResponseGenerator.generateChunksResponse, hllm,
        ResponseGenerator.createErrorResponse]
    · simp [ResponseGenerator.generateResponse, hss,
        ResponseGenerator.generateComprehensiveResponse, hllm,
        ResponseGenerator.createErrorResponse]

/-- C2: when the summary search found at least one summary, the fallback
pure top-5 global chunk search runs exactly once iff the anchored search
of step 3 returns zero chunks — and then its result is the step-3–4 chunk
evidence; when step 3 returns one or more chunks the fallback does not run
and the anchored result is the evidence. -/
theorem claim2_fallback_exactly_once (o : Oracle) (summaries : List Summary)
    (emb : Embedding) (hss : summaries ≠ []) :
    (o.anchoredChunkSearch emb (summaries.map (·.oid))
        (summaries.filterMap (·.root_id)) = .ok [] →
      (QueryProcessor.getChunksFromSummaries o summaries emb).2.countP
          QEvent.isFallback = 1 ∧
      (∀ r, o.fallbackChunkSearch emb = .ok r →
        (QueryProcessor.getChunksFromSummaries o summaries emb).1 = r)) ∧
    (∀ r, o.anchoredChunkSearch emb (summaries.map (·.oid))
        (summaries.filterMap (·.root_id)) = .ok r → r ≠ [] →
      (QueryProcessor.getChunksFromSummaries o summaries emb).2.countP
          QEvent.isFallback = 0 ∧
      (QueryProcessor.getChunksFromSummaries o summaries emb).1 = r) := by
  constructor
  · intro hanch
    unfold QueryProcessor.getChunksFromSummaries
    rw [if_neg hss, hanch]
    dsimp only
    rw [if_neg (by simp)]
    cases hfb : o.fallbackChunkSearch emb with
    | error e =>
        refine ⟨rfl, ?_⟩
        intro r hr
        exact absurd hr (by simp)
    | ok r =>
        refine ⟨rfl, ?_⟩
        intro r2 hr2
        exact Except.ok.inj hr2
  · intro r hanch hr
    unfold QueryProcessor.getChunksFromSummaries
    rw [if_neg hss, hanch]
    dsimp only
    rw [if_pos hr]
    exact ⟨rfl, rfl⟩

/-- C1: with the query embedded, when the chunk evidence collected by
steps 3–4 has fewer than 3 items, `search` issues exactly one additional
direct chunk search (a `knnBeta k = 10` request excluding every collected
chunk id, `$limit 5`) and appends all of its results to the evidence
before assembly (no truncation back to 3); with 3 or more items no direct
search is issued. -/
theorem claim1_low_evidence_direct_search (o : Oracle) (q : String)
    (emb : Embedding) (summaries : List Summary) (cfs add : List StoreChunk)
    (hemb : o.embedQuery q = .ok emb)
    (hsum : (QueryProcessor.searchSummaries o emb).1 = summaries)
    (hcfs : (QueryProcessor.getChunksFromSummaries o summaries emb).1 = cfs)
    (hadd : (QueryProcessor.directChunkSearch o emb
        (cfs.map fun c => toString c.oid)).1 = add) :
    (cfs.length < 3 →
      (QueryProcessor.search o q).2.countP QEvent.isDirect = 1 ∧
      QEvent.directQ (cfs.map fun c => toString c.oid) 10 5
        ∈ (QueryProcessor.search o q).2 ∧
      (QueryProcessor.search o q).1 = .ok
        { chunks := QueryProcessor.processChunks (cfs ++ add)
          summaries := summaries
          metadata :=
            { total_chunks := (QueryProcessor.processChunks (cfs ++ add)).length
              summary_count := summaries.length
              search_type := "hybrid" } }) ∧
    (3 ≤ cfs.length →
      (QueryProcessor.search o q).2.countP QEvent.isDirect = 0 ∧
      (QueryProcessor.search o q).1 = .ok
        { chunks := QueryProcessor.processChunks cfs
          summaries := summaries
          metadata :=
            { total_chunks := (QueryProcessor.processChunks cfs).length
              summary_count := summaries.length
              search_type := "hybrid" } }) := by
  constructor
  · intro hlt
    simp only [QueryProcessor.search, hemb, hsum, hcfs, hadd, if_pos hlt]
    refine ⟨?_, ?_, by simp⟩
    · simp [List.countP_append, searchSummaries_trace,
        getChunksFromSummaries_countP_isDirect, directChunkSearch_trace,
        List.countP_cons, QEvent.isDirect]
    · simp [directChunkSearch_trace]
  · intro hge
    simp only [QueryProcessor.search, hemb, hsum, hcfs, hadd,
      if_neg (not_lt.mpr hge)]
    refine ⟨?_, by simp⟩
    simp [List.countP_append, searchSummaries_trace,
      getChunksFromSummaries_countP_isDirect, List.countP_cons,
      QEvent.isDirect]

/-! ### Witnesses -/

theorem claim1_witness :
    ((QueryProcessor.search emptyStoreOracle "q").2.countP QEvent.isDirect = 1 ∧
      QEvent.directQ [] 10 5 ∈ (QueryProcessor.search emptyStoreOracle "q").2 ∧
      (QueryProcessor.search emptyStoreOracle "q").1 = .ok
        { chunks := QueryProcessor.processChunks ([] ++ [chunkA])
          summaries := []
          metadata :=
            { total_chunks := (QueryProcessor.processChunks ([] ++ [chunkA])).length
              summary_count := ([] : List Summary).length
              search_type := "hybrid" } }) ∧
    ((QueryProcessor.search threeChunkOracle "q").2.countP QEvent.isDirect = 0 ∧
      (QueryProcessor.search threeChunkOracle "q").1 = .ok
        { chunks := QueryProcessor.processChunks [chunkA, chunkB, chunkC]
          summaries := [sampleSummary]
          metadata :=
            { total_chunks :=
                (QueryProcessor.processChunks [chunkA, chunkB, chunkC]).length
              summary_count := [sampleSummary].length
              search_type := "hybrid" } }) := by
  constructor
  · exact (claim1_low_evidence_direct_search emptyStoreOracle "q" [] [] [] [chunkA]
      rfl rfl rfl rfl).1 (by decide)
  · exact (claim1_low_evidence_direct_search threeChunkOracle "q" [] [sampleSummary]
      [chunkA, chunkB, chunkC] [] rfl rfl rfl rfl).2 (by decide)

theorem claim2_witness :
    ((QueryProcessor.getChunksFromSummaries fallbackOracle [sampleSummary] []).2.countP
        QEvent.isFallback = 1 ∧
      (QueryProcessor.getChunksFromSummaries fallbackOracle [sampleSummary] []).1
        = [chunkA]) ∧
    ((QueryProcessor.getChunksFromSummaries threeChunkOracle [sampleSummary] []).2.countP
        QEvent.isFallback = 0 ∧
      (QueryProcessor.getChunksFromSummaries threeChunkOracle [sampleSummary] []).1
        = [chunkA, chunkB, chunkC]) := by
  constructor
  · have h := (claim2_fallback_exactly_once fallbackOracle [sampleSummary] []
      (by decide)).1 rfl
    exact ⟨h.1, h.2 [chunkA] rfl⟩
  · exact (claim2_fallback_exactly_once threeChunkOracle [sampleSummary] []
      (by decide)).2 [chunkA, chunkB, chunkC] rfl (by decide)

theorem claim3_witness :
    0 ≤ (ResponseGenerator.generateResponse okLlmOracle "q"
        positiveSearchResult none).1.confidence ∧
    (ResponseGenerator.generateResponse okLlmOracle "q"
        positiveSearchResult none).1.confidence ≤ 19/20 ∧
    ((ResponseGenerator.generateResponse okLlmOracle "q"
        positiveSearchResult none).1.confidence = 0 ↔
      (ResponseGenerator.generateResponse okLlmOracle "q"
        positiveSearchResult none).1.citations = []) :=
  claim3_confidence_bounds okLlmOracle "q" positiveSearchResult none
    (by intro c hc
        rw [List.mem_singleton.mp hc]
        norm_num [samplePChunk])

theorem claim4_witness :
    ResponseGenerator.calculateChunkConfidence [] = specChunksOnlyConfidence [] ∧
    ResponseGenerator.calculateConfidence
        (ResponseGenerator.createCitations [sampleSummary] [samplePChunk])
        [sampleSummary]
      = specComprehensiveConfidence
          (ResponseGenerator.createCitations [sampleSummary] [samplePChunk])
          [sampleSummary] :=
  ⟨claim4_confidence_formulas.1 [],
   claim4_confidence_formulas.2 [sampleSummary] [samplePChunk] (by decide)⟩

theorem claim5_witness :
    RAGSystem.processQuery embedFailOracle "q" none
      = { answer := "I apologize, but I encountered an error processing your question."
          citations := []
          metadata := { error := some "boom" }
          confidence := 0 } ∧
    RAGSystem.processQuery llmFailOracle "q" none
      = { answer := "I apologize, but I encountered an error while processing your question."
          citations := []
          metadata := { error := some "llm down"
                        error_time := some "t0"
                        processed_at := some "t0"
                        sources_used := some { summaries := some 1, chunks := 0 } }
          confidence := 0 } := by
  constructor
  · exact (claim5_error_shape embedFailOracle "q" none).1 "boom" rfl
  · exact (claim5_error_shape llmFailOracle "q" none).2
      { chunks := []
        summaries := [sampleSummary]
        metadata := { total_chunks := 0, summary_count := 1, search_type := "hybrid" } }
      "llm down" rfl (by decide) (fun p => rfl)

theorem claim6_witness :
    ResponseGenerator.generateResponse okLlmOracle "q" emptySearchResult none
      = (ResponseGenerator.createNoContentResponse, ([] : List QEvent)) ∧
    ResponseGenerator.createNoContentResponse
      = { answer := "I apologize, but I couldn't find relevant information to answer your question accurately."
          citations := []
          metadata := { error := some "No relevant content found" }
          confidence := 0 } :=
  claim6_no_content okLlmOracle "q" emptySearchResult none rfl rfl

end RagPlayground
